import Mathlib

/-!
Verification of the MediClin platform (`mediclin.py`).

The repository is a Streamlit dashboard over a SQLite file.  The parts the
claims are about are embedded shallowly here:

* `analyze_patient` and `predict_conditions` of the `MedicalIntelligence`
  class become pure Lean functions; the Python `patient_data` dict becomes a
  structure of `Option` fields, and `random.uniform(0.1, 0.9)` becomes an
  oracle `rand : ℕ → ℚ` whose values are assumed to lie in the interval the
  library contract gives.
* The SQLite tables become lists of row structures inside a `DB` state;
  `uuid.uuid4()` becomes an oracle string whose first 8 characters are
  lowercase hex digits, and `CURRENT_TIMESTAMP` an explicit `now : ℕ`.
  The `UNIQUE` constraint on `patients.patient_id` is modelled by making the
  insert fail (`none`) when the generated identifier is already present.
* Python float literals (0.85, 0.78, 0.90, thresholds) become exact
  rationals; no arithmetic is performed on them anywhere in the source, so
  this is faithful.
-/

namespace MediClin

/-- The `patient_data` dict passed to `MedicalIntelligence.analyze_patient`:
keys `age`, `gender`, `medical_history`, each possibly absent. -/
structure PatientData where
  age : Option Int
  gender : Option String
  medical_history : Option String
deriving DecidableEq

/-- One insight record produced by `analyze_patient` (a Python dict with keys
`type`, `insight`, `confidence`, `recommendations`). -/
structure Insight where
  type : String
  insight : String
  confidence : ℚ
  recommendations : List String
deriving DecidableEq

/-- The insight appended when `age > 65` (mediclin.py lines 92-98). -/
def riskInsight : Insight :=
  ⟨"Risk Assessment", "Elevated risk profile due to advanced age", 0.85,
    ["Regular cardiovascular screening", "Bone density assessment"]⟩

/-- The insight appended when `gender == "Male" and age > 45`
(mediclin.py lines 101-107). -/
def cardioInsight : Insight :=
  ⟨"Cardiovascular Intelligence", "Increased cardiovascular risk profile", 0.78,
    ["Annual ECG", "Lipid profile monitoring"]⟩

/-- The insight always appended (mediclin.py lines 110-115). -/
def preventiveInsight : Insight :=
  ⟨"Preventive Intelligence", "Recommend comprehensive health assessment", 0.90,
    ["Annual physical exam", "Laboratory screening"]⟩

/-- `MedicalIntelligence.analyze_patient` (mediclin.py lines 84-117):
reads `age` with default 50 and `gender` with default "Unknown", then appends
the insight of each rule that fires, in source order. -/
def analyze_patient (p : PatientData) : List Insight :=
  let age := p.age.getD 50
  let gender := p.gender.getD "Unknown"
  (if age > 65 then [riskInsight] else [])
    ++ (if gender = "Male" ∧ age > 45 then [cardioInsight] else [])
    ++ [preventiveInsight]

/-- Number of insights of a given `type` in a result list. -/
def countType (l : List Insight) (t : String) : ℕ :=
  l.countP (fun i => i.type == t)

/-- Claim C2: `analyze_patient` emits exactly one "Cardiovascular Intelligence"
insight, of confidence 0.78, exactly when the patient's gender is "Male" and
age exceeds 45; otherwise none appears. -/
theorem analyze_cardio_iff (a : Int) (g h : String) :
    countType (analyze_patient ⟨some a, some g, some h⟩) "Cardiovascular Intelligence"
        = (if g = "Male" ∧ a > 45 then 1 else 0)
      ∧ ∀ i ∈ analyze_patient ⟨some a, some g, some h⟩,
          i.type = "Cardiovascular Intelligence" → i.confidence = 0.78 := by
  by_cases h65 : a > 65 <;> by_cases hmg : g = "Male" ∧ a > 45 <;>
    simp [analyze_patient, countType, h65, hmg,
      riskInsight, cardioInsight, preventiveInsight]

/-- Witness for `analyze_cardio_iff` at a concrete male patient aged 50. -/
theorem analyze_cardio_iff_witness :
    countType (analyze_patient ⟨some 50, some "Male", some "none"⟩)
        "Cardiovascular Intelligence" = (if "Male" = "Male" ∧ (50 : Int) > 45 then 1 else 0)
      ∧ cardioInsight.confidence = 0.78 :=
  ⟨(analyze_cardio_iff 50 "Male" "none").1,
    (analyze_cardio_iff 50 "Male" "none").2 cardioInsight
      (by norm_num [analyze_patient]) (by decide)⟩

/-- Claim C3: `analyze_patient` emits exactly one "Risk Assessment" insight,
of confidence 0.85, exactly when the patient's age exceeds 65. -/
theorem analyze_risk_iff (a : Int) (g h : String) :
    countType (analyze_patient ⟨some a, some g, some h⟩) "Risk Assessment"
        = (if a > 65 then 1 else 0)
      ∧ ∀ i ∈ analyze_patient ⟨some a, some g, some h⟩,
          i.type = "Risk Assessment" → i.confidence = 0.85 := by
  by_cases h65 : a > 65 <;> by_cases hmg : g = "Male" ∧ a > 45 <;>
    simp [analyze_patient, countType, h65, hmg,
      riskInsight, cardioInsight, preventiveInsight]

/-- Witness for `analyze_risk_iff` at a concrete patient aged 70. -/
theorem analyze_risk_iff_witness :
    countType (analyze_patient ⟨some 70, some "Female", some "none"⟩) "Risk Assessment"
        = (if (70 : Int) > 65 then 1 else 0)
      ∧ riskInsight.confidence = 0.85 :=
  ⟨(analyze_risk_iff 70 "Female" "none").1,
    (analyze_risk_iff 70 "Female" "none").2 riskInsight
      (by norm_num [analyze_patient]) (by decide)⟩

/-- Claim C4: for every patient input, `analyze_patient` emits exactly one
"Preventive Intelligence" insight, of confidence 0.90. -/
theorem analyze_preventive_always (p : PatientData) :
    countType (analyze_patient p) "Preventive Intelligence" = 1
      ∧ ∀ i ∈ analyze_patient p,
          i.type = "Preventive Intelligence" → i.confidence = 0.90 := by
  by_cases h65 : p.age.getD 50 > 65 <;>
    by_cases hmg : p.gender.getD "Unknown" = "Male" ∧ p.age.getD 50 > 45 <;>
      simp [analyze_patient, countType, h65, hmg,
        riskInsight, cardioInsight, preventiveInsight]

/-- Witness for `analyze_preventive_always` at a concrete patient. -/
theorem analyze_preventive_always_witness :
    countType (analyze_patient ⟨some 30, some "Other", some ""⟩) "Preventive Intelligence" = 1
      ∧ preventiveInsight.confidence = 0.90 :=
  ⟨(analyze_preventive_always ⟨some 30, some "Other", some ""⟩).1,
    (analyze_preventive_always ⟨some 30, some "Other", some ""⟩).2
      preventiveInsight (by norm_num [analyze_patient]) (by decide)⟩

/-- Claim C9: `analyze_patient` never reads the free-text medical history:
two patients agreeing on age and gender get identical insight lists whatever
their histories are. -/
theorem analyze_history_noninterference (a : Option Int) (g : Option String)
    (h1 h2 : Option String) :
    analyze_patient ⟨a, g, h1⟩ = analyze_patient ⟨a, g, h2⟩ := rfl

/-- Claim C10: for every gender and history, a patient lacking the `age` field
is analyzed exactly as one with the explicit default age 50 (observable at
gender "Male", where 50 > 45 fires the cardiovascular rule); for every age and
history, a patient lacking the `gender` field is analyzed exactly as one with
the explicit default gender "Unknown"; and with both fields missing the result
is exactly the single preventive insight. -/
theorem analyze_defaults (a : Int) (g : String) (h : Option String) :
    analyze_patient ⟨none, some g, h⟩ = analyze_patient ⟨some 50, some g, h⟩
      ∧ analyze_patient ⟨some a, none, h⟩ = analyze_patient ⟨some a, some "Unknown", h⟩
      ∧ analyze_patient ⟨none, none, h⟩ = [preventiveInsight] := by
  exact ⟨rfl, rfl, rfl⟩

/-- The fixed condition catalog (`MedicalIntelligence.__init__`, lines 79-82). -/
def conditions : List String :=
  ["Hypertension", "Diabetes Type 2", "Cardiovascular Disease",
   "Respiratory Issues", "Neurological Conditions", "Metabolic Disorders"]

/-- One prediction record produced by `predict_conditions` (a Python dict with
keys `condition`, `confidence`, `risk_level`). -/
structure Prediction where
  condition : String
  confidence : ℚ
  risk_level : String
deriving DecidableEq

/-- Line 125: the risk label attached to a confidence value. -/
def risk_level_of (confidence : ℚ) : String :=
  if confidence > 0.7 then "High" else if confidence > 0.4 then "Medium" else "Low"

/-- The `predictions` list built by the loop in `predict_conditions` (lines
121-131): the i-th iteration's `random.uniform(0.1, 0.9)` call is the i-th
value of the oracle `rand`. -/
def rawPredictions (rand : ℕ → ℚ) : List Prediction :=
  conditions.enum.map (fun ic => ⟨ic.2, rand ic.1, risk_level_of (rand ic.1)⟩)

/-- `MedicalIntelligence.predict_conditions` (lines 119-133): sort by
descending confidence (Python's stable `sorted` with `reverse=True` is a
stable merge sort under the flipped comparison) and keep the first 4. -/
def predict_conditions (rand : ℕ → ℚ) : List Prediction :=
  ((rawPredictions rand).mergeSort (fun a b => decide (b.confidence ≤ a.confidence))).take 4

/-- Claim C1: whenever every uniform draw lies in [0.1, 0.9) — the contract of
`random.uniform(0.1, 0.9)` — `predict_conditions` returns exactly 4 records,
sorted by descending confidence, each confidence in [0.1, 0.9), and each risk
label High above 0.7, Medium above 0.4, Low otherwise. -/
theorem predict_conditions_spec (rand : ℕ → ℚ)
    (hr : ∀ i < conditions.length, 0.1 ≤ rand i ∧ rand i < 0.9) :
    (predict_conditions rand).length = 4
      ∧ (predict_conditions rand).Pairwise (fun a b => b.confidence ≤ a.confidence)
      ∧ ∀ p ∈ predict_conditions rand,
          (0.1 ≤ p.confidence ∧ p.confidence < 0.9)
            ∧ p.risk_level = (if p.confidence > 0.7 then "High"
                else if p.confidence > 0.4 then "Medium" else "Low") := by
  have hperm := List.mergeSort_perm (rawPredictions rand)
    (fun a b => decide (b.confidence ≤ a.confidence))
  refine ⟨?_, ?_, ?_⟩
  · simp only [predict_conditions, List.length_take, hperm.length_eq]
    simp [rawPredictions, conditions]
  · have hs := @List.sorted_mergeSort Prediction
      (fun a b => decide (b.confidence ≤ a.confidence))
      (fun a b c hab hbc => by
        simp only [decide_eq_true_eq] at hab hbc ⊢
        exact le_trans hbc hab)
      (fun a b => by
        simp only [Bool.or_eq_true, decide_eq_true_eq]
        exact le_total b.confidence a.confidence)
      (rawPredictions rand)
    have hs2 := List.Pairwise.imp (fun h => of_decide_eq_true h) hs
    exact List.Pairwise.sublist (List.take_sublist 4 _) hs2
  · intro p hp
    have hp1 := List.mem_of_mem_take hp
    have hp2 := hperm.mem_iff.mp hp1
    simp only [rawPredictions, List.mem_map] at hp2
    obtain ⟨ic, hic, rfl⟩ := hp2
    have hi : ic.1 < conditions.length := by
      rw [List.mem_enum_iff_getElem?] at hic
      exact (List.getElem?_eq_some.mp hic).choose
    exact ⟨hr ic.1 hi, by simp [risk_level_of]⟩

/-- Witness for `predict_conditions_spec` with every draw equal to 1/2. -/
theorem predict_conditions_spec_witness :
    (predict_conditions fun _ => (1 : ℚ)/2).length = 4
      ∧ (predict_conditions fun _ => (1 : ℚ)/2).Pairwise
          (fun a b => b.confidence ≤ a.confidence)
      ∧ ∀ p ∈ predict_conditions fun _ => (1 : ℚ)/2,
          (0.1 ≤ p.confidence ∧ p.confidence < 0.9)
            ∧ p.risk_level = (if p.confidence > 0.7 then "High"
                else if p.confidence > 0.4 then "Medium" else "Low") :=
  predict_conditions_spec (fun _ => (1 : ℚ)/2) (fun i _ => by norm_num)

/-- A row of the `patients` table (schema, lines 35-45); `id` is the
AUTOINCREMENT rowid and `created_at` the CURRENT_TIMESTAMP value. -/
structure PatientRow where
  id : ℕ
  patient_id : String
  name : String
  age : Int
  gender : String
  medical_history : String
  created_at : ℕ
deriving DecidableEq

/-- A row of the `intelligence_insights` table (schema, lines 60-69). -/
structure InsightRow where
  id : ℕ
  patient_id : String
  insight_type : String
  insight_text : String
  confidence : ℚ
  created_at : ℕ
deriving DecidableEq

/-- The `mediclin.db` state: the two tables the claims touch, each in rowid
(insertion) order.  The `medical_data` table is never written or read. -/
structure DB where
  patients : List PatientRow
  insights : List InsightRow
deriving DecidableEq

/-- The lowercase hex digits: the alphabet of the first 8 characters of
`str(uuid.uuid4())`. -/
def hexLower : List Char :=
  "0123456789abcdef".data

/-- The shape of `str(uuid.uuid4())` that identifier generation relies on:
at least 8 characters, the first 8 of them lowercase hex digits. -/
def uuid4Shape (u : String) : Prop :=
  8 ≤ u.data.length ∧ ∀ c ∈ u.data.take 8, c ∈ hexLower

/-- Line 141: `f"MI-{str(uuid.uuid4())[:8].upper()}"`. -/
def mkPatientId (uuid : String) : String :=
  "MI-" ++ ⟨(uuid.data.take 8).map Char.toUpper⟩

/-- `add_patient` (lines 136-150): generate the identifier and INSERT the row.
The schema's UNIQUE constraint on `patient_id` makes the insert raise (here:
return `none`) when the identifier already exists; the function itself checks
nothing. -/
def add_patient (db : DB) (name : String) (age : Int)
    (gender medical_history : String) (uuid : String) (now : ℕ) :
    Option (DB × String) :=
  let patient_id := mkPatientId uuid
  if db.patients.any (fun r => r.patient_id == patient_id) then none
  else some
    ({ db with patients := db.patients ++
        [⟨db.patients.length + 1, patient_id, name, age, gender, medical_history, now⟩] },
      patient_id)

/-- `get_all_patients` (lines 152-161): SELECT * FROM patients ORDER BY
created_at DESC. -/
def get_all_patients (db : DB) : List PatientRow :=
  db.patients.mergeSort (fun a b => decide (b.created_at ≤ a.created_at))

/-- `save_intelligence_insight` (lines 163-174): append-only INSERT into
`intelligence_insights`. -/
def save_intelligence_insight (db : DB) (patient_id insight_type insight_text : String)
    (confidence : ℚ) (now : ℕ) : DB :=
  { db with insights := db.insights ++
      [⟨db.insights.length + 1, patient_id, insight_type, insight_text, confidence, now⟩] }

/-- Claim C7: saving an insight appends exactly one row carrying the given
confidence value unchanged, and reading the table back yields it as the last
row with confidence exactly the value passed in. -/
theorem save_insight_exact_confidence (db : DB) (pid ty body : String) (c : ℚ) (now : ℕ) :
    (save_intelligence_insight db pid ty body c now).insights
        = db.insights ++ [⟨db.insights.length + 1, pid, ty, body, c, now⟩]
      ∧ ((save_intelligence_insight db pid ty body c now).insights.getLast?).map
          InsightRow.confidence = some c := by
  refine ⟨rfl, ?_⟩
  simp [save_intelligence_insight, List.getLast?_concat]

/-- In a list sorted by descending `created_at`, a member strictly newer than
every other element is the head. -/
lemma head?_eq_of_strict_max {l : List PatientRow} {x : PatientRow}
    (hp : l.Pairwise (fun a b => b.created_at ≤ a.created_at))
    (hx : x ∈ l) (hmax : ∀ y ∈ l, y ≠ x → y.created_at < x.created_at) :
    l.head? = some x := by
  cases l with
  | nil => cases hx
  | cons a t =>
    by_cases hax : a = x
    · simp [hax]
    · exfalso
      have hxt : x ∈ t := by
        rcases List.mem_cons.mp hx with h | h
        · exact absurd h.symm hax
        · exact h
      have hle : x.created_at ≤ a.created_at := (List.pairwise_cons.mp hp).1 x hxt
      have hlt : a.created_at < x.created_at := hmax a (List.mem_cons_self a t) hax
      exact absurd hle (not_le.mpr hlt)

/-- The listing returned by `get_all_patients` is sorted by descending
`created_at`. -/
lemma get_all_patients_sorted (db : DB) :
    (get_all_patients db).Pairwise (fun a b => b.created_at ≤ a.created_at) := by
  have hs := @List.sorted_mergeSort PatientRow
    (fun a b => decide (b.created_at ≤ a.created_at))
    (fun a b c hab hbc => by
      simp only [decide_eq_true_eq] at hab hbc ⊢
      exact le_trans hbc hab)
    (fun a b => by
      simp only [Bool.or_eq_true, decide_eq_true_eq]
      exact le_total b.created_at a.created_at)
    db.patients
  exact List.Pairwise.imp (fun h => of_decide_eq_true h) hs

/-- Uppercasing a lowercase hex digit yields an alphanumeric character. -/
lemma hex_toUpper_isAlphanum : ∀ c ∈ hexLower, (Char.toUpper c).isAlphanum = true := by
  decide

/-- Uppercasing is injective on the lowercase hex digits. -/
lemma hex_toUpper_inj :
    ∀ c1 ∈ hexLower, ∀ c2 ∈ hexLower, Char.toUpper c1 = Char.toUpper c2 → c1 = c2 := by
  decide

/-- Mapping `Char.toUpper` is injective on strings of lowercase hex digits. -/
lemma map_toUpper_inj_on_hex :
    ∀ l1 l2 : List Char, (∀ c ∈ l1, c ∈ hexLower) → (∀ c ∈ l2, c ∈ hexLower) →
      l1.map Char.toUpper = l2.map Char.toUpper → l1 = l2 := by
  intro l1
  induction l1 with
  | nil =>
    intro l2 _ _ h
    cases l2 with
    | nil => rfl
    | cons b u => simp at h
  | cons a t ih =>
    intro l2 h1 h2 h
    cases l2 with
    | nil => simp at h
    | cons b u =>
      simp only [List.map_cons, List.cons.injEq] at h
      have hab : a = b := hex_toUpper_inj a (h1 a (List.mem_cons_self a t))
        b (h2 b (List.mem_cons_self b u)) h.1
      have htu := ih u (fun c hc => h1 c (List.mem_cons_of_mem a hc))
        (fun c hc => h2 c (List.mem_cons_of_mem b hc)) h.2
      simp [hab, htu]

/-- Two uuids differing within their first 8 characters generate distinct
patient identifiers. -/
lemma mkPatientId_ne {u1 u2 : String}
    (h1 : ∀ c ∈ u1.data.take 8, c ∈ hexLower) (h2 : ∀ c ∈ u2.data.take 8, c ∈ hexLower)
    (hne : u1.data.take 8 ≠ u2.data.take 8) : mkPatientId u1 ≠ mkPatientId u2 := by
  intro h
  apply hne
  have hdata : 'M' :: 'I' :: '-' :: (u1.data.take 8).map Char.toUpper
      = 'M' :: 'I' :: '-' :: (u2.data.take 8).map Char.toUpper := congrArg String.data h
  simp only [List.cons.injEq, true_and] at hdata
  exact map_toUpper_inj_on_hex _ _ h1 h2 hdata

/-- Claim C5: adding Jane Doe (70, Female, history "none") returns an
identifier "MI-" plus 8 alphanumeric characters, and the next
`get_all_patients` listing (newest first) starts with the inserted row —
given the uuid4 shape of the generated uuid, a fresh identifier, and an
insertion timestamp newer than every existing row's. -/
theorem add_patient_then_list (db : DB) (uuid : String) (now : ℕ)
    (hu : uuid4Shape uuid)
    (hfresh : ∀ r ∈ db.patients, r.patient_id ≠ mkPatientId uuid)
    (hnew : ∀ r ∈ db.patients, r.created_at < now) :
    ∃ db2 : DB,
      add_patient db "Jane Doe" 70 "Female" "none" uuid now = some (db2, mkPatientId uuid)
        ∧ (∃ s : String, mkPatientId uuid = "MI-" ++ s ∧ s.data.length = 8
            ∧ ∀ c ∈ s.data, c.isAlphanum = true)
        ∧ (get_all_patients db2).head? = some
            ⟨db.patients.length + 1, mkPatientId uuid, "Jane Doe", 70, "Female", "none", now⟩ := by
  have hnotany : db.patients.any (fun r => r.patient_id == mkPatientId uuid) = false := by
    rw [List.any_eq_false]
    intro r hr
    simpa using hfresh r hr
  set newRow : PatientRow :=
    ⟨db.patients.length + 1, mkPatientId uuid, "Jane Doe", 70, "Female", "none", now⟩ with hrow
  refine ⟨{ db with patients := db.patients ++ [newRow] }, ?_, ?_, ?_⟩
  · simp [add_patient, hnotany, hrow]
  · refine ⟨⟨(uuid.data.take 8).map Char.toUpper⟩, rfl, ?_, ?_⟩
    · simp only [List.length_map, List.length_take]
      exact Nat.min_eq_left hu.1
    · intro c hc
      obtain ⟨d, hd, rfl⟩ := List.mem_map.mp hc
      exact hex_toUpper_isAlphanum d (hu.2 d hd)
  · apply head?_eq_of_strict_max (get_all_patients_sorted _)
    · exact (List.mergeSort_perm _ _).mem_iff.mpr (by simp)
    · intro y hy hne
      have hy2 := (List.mergeSort_perm _ _).mem_iff.mp hy
      rcases List.mem_append.mp hy2 with h | h
      · exact hnew y h
      · exact absurd (List.mem_singleton.mp h) hne

/-- Witness for `add_patient_then_list`: Jane Doe inserted into an empty
database with a concrete uuid4 string. -/
theorem add_patient_then_list_witness :
    ∃ db2 : DB,
      add_patient ⟨[], []⟩ "Jane Doe" 70 "Female" "none"
          "1f3a5c7e-9b2d-4e6f-8a1b-0c3d5e7f9a2b" 1
        = some (db2, mkPatientId "1f3a5c7e-9b2d-4e6f-8a1b-0c3d5e7f9a2b")
        ∧ (∃ s : String, mkPatientId "1f3a5c7e-9b2d-4e6f-8a1b-0c3d5e7f9a2b" = "MI-" ++ s
            ∧ s.data.length = 8 ∧ ∀ c ∈ s.data, c.isAlphanum = true)
        ∧ (get_all_patients db2).head? = some
            ⟨(⟨[], []⟩ : DB).patients.length + 1,
              mkPatientId "1f3a5c7e-9b2d-4e6f-8a1b-0c3d5e7f9a2b",
              "Jane Doe", 70, "Female", "none", 1⟩ :=
  add_patient_then_list ⟨[], []⟩ "1f3a5c7e-9b2d-4e6f-8a1b-0c3d5e7f9a2b" 1
    ⟨by decide, by decide⟩ (by simp) (by simp)

/-- Claim C6 as stated is false on the code: when the two uuid draws share
their first 8 characters, the generated identifiers coincide, and the second
INSERT violates the UNIQUE constraint on `patient_id` instead of succeeding. -/
theorem add_patient_twice_collision :
    mkPatientId "aaaaaaaa-1111" = mkPatientId "aaaaaaaa-2222"
      ∧ add_patient ⟨[], []⟩ "John Doe" 50 "Male" "none" "aaaaaaaa-1111" 1
        = some (⟨[⟨1, "MI-AAAAAAAA", "John Doe", 50, "Male", "none", 1⟩], []⟩, "MI-AAAAAAAA")
      ∧ add_patient ⟨[⟨1, "MI-AAAAAAAA", "John Doe", 50, "Male", "none", 1⟩], []⟩
          "Jane Doe" 70 "Female" "none" "aaaaaaaa-2222" 2 = none := by
  refine ⟨rfl, ?_, ?_⟩ <;> rfl

/-- Claim C6 (amended): two successive `add_patient` calls insert two rows and
return distinct identifiers whenever the two generated uuids differ within
their first 8 characters and neither identifier is already taken. -/
theorem add_patient_twice_distinct (db : DB)
    (n1 : String) (a1 : Int) (g1 h1 : String) (n2 : String) (a2 : Int) (g2 h2 : String)
    (u1 u2 : String) (t1 t2 : ℕ)
    (hx1 : ∀ c ∈ u1.data.take 8, c ∈ hexLower) (hx2 : ∀ c ∈ u2.data.take 8, c ∈ hexLower)
    (hne : u1.data.take 8 ≠ u2.data.take 8)
    (hf1 : ∀ r ∈ db.patients, r.patient_id ≠ mkPatientId u1)
    (hf2 : ∀ r ∈ db.patients, r.patient_id ≠ mkPatientId u2) :
    ∃ db1 db2 : DB,
      add_patient db n1 a1 g1 h1 u1 t1 = some (db1, mkPatientId u1)
        ∧ add_patient db1 n2 a2 g2 h2 u2 t2 = some (db2, mkPatientId u2)
        ∧ mkPatientId u1 ≠ mkPatientId u2
        ∧ db2.patients.length = db.patients.length + 2 := by
  have hpid : mkPatientId u1 ≠ mkPatientId u2 := mkPatientId_ne hx1 hx2 hne
  have hnotany1 : db.patients.any (fun r => r.patient_id == mkPatientId u1) = false := by
    rw [List.any_eq_false]
    intro r hr
    simpa using hf1 r hr
  set row1 : PatientRow :=
    ⟨db.patients.length + 1, mkPatientId u1, n1, a1, g1, h1, t1⟩ with hrow1
  set db1 : DB := { db with patients := db.patients ++ [row1] } with hdb1
  have hnotany2 : db1.patients.any (fun r => r.patient_id == mkPatientId u2) = false := by
    rw [List.any_eq_false]
    intro r hr
    rcases List.mem_append.mp hr with h | h
    · simpa using hf2 r h
    · rw [List.mem_singleton.mp h]
      simpa using hpid
  set row2 : PatientRow :=
    ⟨db1.patients.length + 1, mkPatientId u2, n2, a2, g2, h2, t2⟩ with hrow2
  refine ⟨db1, { db1 with patients := db1.patients ++ [row2] }, ?_, ?_, hpid, ?_⟩
  · simp [add_patient, hnotany1, hdb1, hrow1]
  · simp [add_patient, hnotany2, hrow2]
  · simp only [hdb1, List.length_append, List.length_singleton]

/-- Witness for `add_patient_twice_distinct`: two concrete inserts into an
empty database with distinct uuid draws. -/
theorem add_patient_twice_distinct_witness :
    ∃ db1 db2 : DB,
      add_patient ⟨[], []⟩ "John Doe" 30 "Male" "x" "aaaaaaaa-0000" 1
          = some (db1, mkPatientId "aaaaaaaa-0000")
        ∧ add_patient db1 "Jane Doe" 40 "Female" "y" "bbbbbbbb-0000" 2
          = some (db2, mkPatientId "bbbbbbbb-0000")
        ∧ mkPatientId "aaaaaaaa-0000" ≠ mkPatientId "bbbbbbbb-0000"
        ∧ db2.patients.length = (⟨[], []⟩ : DB).patients.length + 2 :=
  add_patient_twice_distinct ⟨[], []⟩ "John Doe" 30 "Male" "x" "Jane Doe" 40 "Female" "y"
    "aaaaaaaa-0000" "bbbbbbbb-0000" 1 2 (by decide) (by decide) (by decide)
    (by simp) (by simp)

/-- The "Add Patient & Analyze" form handler (mediclin.py lines 281-300): the
add action runs only when the submitted name is truthy (`if name:`); it then
inserts the patient, analyzes the submitted fields and saves every insight.
`none` models an uncaught database error aborting the render. -/
def patient_form_submit (db : DB) (name : String) (age : Int)
    (gender medical_history uuid : String) (now : ℕ) : Option (DB × Option String) :=
  if name ≠ "" then
    match add_patient db name age gender medical_history uuid now with
    | none => none
    | some (db1, pid) =>
      some ((analyze_patient ⟨some age, some gender, some medical_history⟩).foldl
          (fun d i => save_intelligence_insight d pid i.type i.insight i.confidence now) db1,
        some pid)
  else some (db, none)

/-- Saving a list of insights never touches the `patients` table. -/
lemma foldl_save_patients (l : List Insight) (pid : String) (now : ℕ) :
    ∀ d : DB, (l.foldl (fun d i =>
        save_intelligence_insight d pid i.type i.insight i.confidence now) d).patients
      = d.patients := by
  induction l with
  | nil => intro d; rfl
  | cons a t ih =>
    intro d
    rw [List.foldl_cons, ih]
    rfl

/-- Claim C8: an empty name silently skips the add action — state unchanged,
no error, no identifier; a non-empty name (with a fresh generated identifier)
inserts exactly one patient row and reports its identifier. -/
theorem patient_form_name_gate (db : DB) (name : String) (age : Int)
    (gender medical_history uuid : String) (now : ℕ) :
    (name = "" → patient_form_submit db name age gender medical_history uuid now
        = some (db, none))
      ∧ (name ≠ "" → (∀ r ∈ db.patients, r.patient_id ≠ mkPatientId uuid) →
          ∃ db2 : DB, patient_form_submit db name age gender medical_history uuid now
              = some (db2, some (mkPatientId uuid))
            ∧ db2.patients = db.patients ++
                [⟨db.patients.length + 1, mkPatientId uuid, name, age, gender,
                  medical_history, now⟩]) := by
  constructor
  · intro h
    simp [patient_form_submit, h]
  · intro hn hfresh
    have hnotany : db.patients.any (fun r => r.patient_id == mkPatientId uuid) = false := by
      rw [List.any_eq_false]
      intro r hr
      simpa using hfresh r hr
    have hadd : add_patient db name age gender medical_history uuid now
        = some ({ db with patients := db.patients ++
            [⟨db.patients.length + 1, mkPatientId uuid, name, age, gender,
              medical_history, now⟩] }, mkPatientId uuid) := by
      simp [add_patient, hnotany]
    unfold patient_form_submit
    rw [if_pos hn, hadd]
    exact ⟨_, rfl, foldl_save_patients _ _ _ _⟩

/-- Witness for `patient_form_name_gate`: a non-empty name on an empty
database inserts the row. -/
theorem patient_form_name_gate_witness :
    ∃ db2 : DB,
      patient_form_submit ⟨[], []⟩ "Jane Doe" 70 "Female" "none" "1a2b3c4d-0000" 1
          = some (db2, some (mkPatientId "1a2b3c4d-0000"))
        ∧ db2.patients = (⟨[], []⟩ : DB).patients ++
            [⟨(⟨[], []⟩ : DB).patients.length + 1, mkPatientId "1a2b3c4d-0000",
              "Jane Doe", 70, "Female", "none", 1⟩] :=
  (patient_form_name_gate ⟨[], []⟩ "Jane Doe" 70 "Female" "none" "1a2b3c4d-0000" 1).2
    (by decide) (by simp)

end MediClin
